import Mathlib

/-!
Shallow embedding of `scripts/make_bench.py`.

The script writes a fixed header to `history.txt`, then for each of 10,000
days starting at 2024-01-01 writes a date line (`%Y/%m/%d(%a)`), 100
tab-separated message lines (`%H:%M\tNAME\tMESSAGE` at minute offsets
0..99 of the day), one multi-line quoted message reusing the last loop
timestamp, and a blank separator line.

The embedding models each `f.write(...)` call as a string chunk; the file
content is the concatenation of the chunks in program order.  Python's
`datetime` day arithmetic is modelled by the proleptic Gregorian
day-successor function, and `%H:%M` formatting of `midnight + j minutes`
(for `j < 1440`) as zero-padded `j / 60` and `j % 60`.
-/

set_option maxRecDepth 4000

namespace MakeBench

/-- The decimal digit character of `n % 10`, as produced by zero-padded
`strftime` numeric fields. -/
def digitChar (n : Nat) : Char := Char.ofNat (48 + n % 10)

/-- Two-digit zero-padded decimal rendering (`%m`, `%d`, `%H`, `%M`) for `n < 100`. -/
def pad2 (n : Nat) : String := String.mk [digitChar (n / 10), digitChar n]

/-- Four-digit zero-padded decimal rendering (`%Y`) for `n < 10000`. -/
def pad4 (n : Nat) : String :=
  String.mk [digitChar (n / 1000), digitChar (n / 100), digitChar (n / 10), digitChar n]

/-- A proleptic Gregorian calendar date, as held by `datetime.datetime`
(the time component is always midnight in the script, except for the
minute offsets handled separately). -/
structure Date where
  year : Nat
  month : Nat
  day : Nat
deriving DecidableEq, Repr

/-- Gregorian leap-year rule used by `datetime`. -/
def isLeap (y : Nat) : Bool := (y % 4 == 0 && y % 100 != 0) || y % 400 == 0

/-- Number of days in month `m` of year `y`. -/
def daysInMonth (y m : Nat) : Nat :=
  if m = 2 then (if isLeap y then 29 else 28)
  else if m = 4 ∨ m = 6 ∨ m = 9 ∨ m = 11 then 30
  else 31

/-- The next calendar day: models `d + datetime.timedelta(days=1)`. -/
def succDate (d : Date) : Date :=
  if d.day < daysInMonth d.year d.month then ⟨d.year, d.month, d.day + 1⟩
  else if d.month < 12 then ⟨d.year, d.month + 1, 1⟩
  else ⟨d.year + 1, 1, 1⟩

/-- `datetime.datetime(2024, 1, 1, 0, 0)`. -/
def baseDate : Date := ⟨2024, 1, 1⟩

/-- `datetime.datetime(2024, 1, 1, 0, 0) + datetime.timedelta(days=i)`:
day addition is iterated day succession. -/
def dateOfIndex : Nat → Date
  | 0 => baseDate
  | i + 1 => succDate (dateOfIndex i)

/-- `%a` (C-locale abbreviated weekday) of `baseDate + i` days.
2024-01-01 is a Monday, and adding `i` days advances the weekday by
`i mod 7`. -/
def wdName (i : Nat) : String :=
  match i % 7 with
  | 0 => "Mon"
  | 1 => "Tue"
  | 2 => "Wed"
  | 3 => "Thu"
  | 4 => "Fri"
  | 5 => "Sat"
  | _ => "Sun"

/-- `f"{date:%Y/%m/%d(%a)}"` for `date = baseDate + i` days. -/
def dateLine (i : Nat) : String :=
  pad4 (dateOfIndex i).year ++ "/" ++ pad2 (dateOfIndex i).month ++ "/" ++
    pad2 (dateOfIndex i).day ++ "(" ++ wdName i ++ ")"

/-- `f"{time:%H:%M}"` where `time = date + datetime.timedelta(minutes=j)`
and `date` is at midnight (`j < 1440` in every use here, in fact `j < 100`). -/
def timeStr (j : Nat) : String := pad2 (j / 60) ++ ":" ++ pad2 (j % 60)

/-- One regular message line (without its trailing newline):
`f"{time:%H:%M}\tNAME\tMESSAGE"`. -/
def msgLine (j : Nat) : String := timeStr j ++ "\tNAME\tMESSAGE"

/-- The quoted multi-line message field written after the 100-iteration
loop; `time` still holds `date + 99 minutes` (Python `for` leaks its
loop variable). -/
def quotedChunk : String :=
  timeStr 99 ++
    "\tNAME\t\"MESSAGE LINE 0\nMESSAGE LINE 1\nMESSAGE LINE 2\nMESSAGE LINE 3\nMESSAGE LINE 4\nMESSAGE LINE 5\nMESSAGE LINE 6\nMESSAGE LINE 7\nMESSAGE LINE 8\"\n"

/-- The first `f.write` argument: the fixed two-line header plus a blank line. -/
def headerChunk : String := "[LINE] xxxのトーク履歴\n保存日時：2024/01/01 00:00\n\n"

/-- The `f.write` arguments issued by iteration `i` of the outer loop, in
order: date line, 100 message lines, the quoted message, a blank line. -/
def blockChunks (i : Nat) : List String :=
  (dateLine i ++ "\n") :: ((List.range 100).map (fun j => msgLine j ++ "\n") ++
    [quotedChunk, "\n"])

/-- All `f.write` arguments of a run, in program order. -/
def writes : List String := headerChunk :: (List.range 10000).flatMap blockChunks

/-- Sequential writes concatenate: the file content is the chunks joined
in order. -/
def writeAll : List String → String
  | [] => ""
  | s :: rest => s ++ writeAll rest

/-- The complete text of `history.txt` produced by a run. -/
def fileContent : String := writeAll writes

/-- The header, as newline-terminated lines. -/
def headerLines : List String := ["[LINE] xxxのトーク履歴", "保存日時：2024/01/01 00:00", ""]

/-- The physical lines of the quoted multi-line message: the timestamped
line opening the double quote, then the remaining eight body lines, the
last closing the double quote. -/
def quotedMsgLines : List String :=
  (timeStr 99 ++ "\tNAME\t\"MESSAGE LINE 0") ::
    ["MESSAGE LINE 1", "MESSAGE LINE 2", "MESSAGE LINE 3", "MESSAGE LINE 4",
     "MESSAGE LINE 5", "MESSAGE LINE 6", "MESSAGE LINE 7", "MESSAGE LINE 8\""]

/-- The newline-terminated lines contributed by day-block `i`, including
its trailing blank separator line. -/
def blockLines (i : Nat) : List String :=
  dateLine i :: ((List.range 100).map msgLine ++ (quotedMsgLines ++ [""]))

/-- All newline-terminated lines of the file, in order. -/
def fileLines : List String := headerLines ++ (List.range 10000).flatMap blockLines

/-- Rebuild a file text from its lines, terminating each with `"\n"`. -/
def mkLines (l : List String) : String := writeAll (l.map (fun s => s ++ "\n"))

/-- Number of newline characters in a string; for a text ending in a
newline this is its number of (newline-terminated) lines. -/
def countNL (s : String) : Nat := s.data.count '\n'

/-- Chronological (lexicographic) strict order on dates. -/
def dateLt (a b : Date) : Prop :=
  a.year < b.year ∨ (a.year = b.year ∧
    (a.month < b.month ∨ (a.month = b.month ∧ a.day < b.day)))

/-- A well-formed calendar date. -/
def ValidDate (d : Date) : Prop :=
  1 ≤ d.month ∧ d.month ≤ 12 ∧ 1 ≤ d.day ∧ d.day ≤ daysInMonth d.year d.month

/-- The script as a function of the process inputs it could in principle
observe.  The source reads neither `sys.argv` nor `os.environ` nor any
file, so the body does not depend on either argument. -/
def scriptOutput (_argv : List String) (_environ : List (String × String)) : String :=
  fileContent

/-- Fallible-write semantics: run the writes in order with a write
primitive that fails at index `failAt` (e.g. disk full).  The source has
no `try`/`except`, so exception propagation is modelled by the `Except`
monad: a failing write aborts the remainder of the run. -/
def runWrites : List String → Nat → Option Nat → Except Unit String
  | [], _, _ => .ok ""
  | s :: rest, idx, failAt =>
    if failAt = some idx then .error () else
      match runWrites rest (idx + 1) failAt with
      | .error e => .error e
      | .ok r => .ok (s ++ r)

/-! ### Basic lemmas about concatenation and line counting -/

theorem writeAll_append (a b : List String) :
    writeAll (a ++ b) = writeAll a ++ writeAll b := by
  induction a with
  | nil => simp [writeAll, String.empty_append]
  | cons s t ih => simp [writeAll, ih, String.append_assoc]

theorem mkLines_append (a b : List String) :
    mkLines (a ++ b) = mkLines a ++ mkLines b := by
  simp [mkLines, List.map_append, writeAll_append]

theorem countNL_append (a b : String) :
    countNL (a ++ b) = countNL a + countNL b := by
  simp [countNL, String.data_append, List.count_append]

theorem countNL_writeAll (l : List String) :
    countNL (writeAll l) = (l.map countNL).sum := by
  induction l with
  | nil => rfl
  | cons s t ih => simp [writeAll, countNL_append, ih]

theorem digitChar_ne_nl (n : Nat) : digitChar n ≠ Char.ofNat 10 := by
  unfold digitChar
  have h : n % 10 < 10 := Nat.mod_lt _ (by norm_num)
  set k := n % 10 with hk
  interval_cases k <;> decide

theorem countNL_pad2 (n : Nat) : countNL (pad2 n) = 0 := by
  show List.count '\n' [digitChar (n / 10), digitChar n] = 0
  rw [List.count_eq_zero]
  intro hmem
  simp only [List.mem_cons, List.not_mem_nil, or_false] at hmem
  rcases hmem with h | h
  · exact digitChar_ne_nl (n / 10) h.symm
  · exact digitChar_ne_nl n h.symm

theorem countNL_pad4 (n : Nat) : countNL (pad4 n) = 0 := by
  show List.count '\n'
    [digitChar (n / 1000), digitChar (n / 100), digitChar (n / 10), digitChar n] = 0
  rw [List.count_eq_zero]
  intro hmem
  simp only [List.mem_cons, List.not_mem_nil, or_false] at hmem
  rcases hmem with h | h | h | h
  · exact digitChar_ne_nl (n / 1000) h.symm
  · exact digitChar_ne_nl (n / 100) h.symm
  · exact digitChar_ne_nl (n / 10) h.symm
  · exact digitChar_ne_nl n h.symm

theorem countNL_timeStr (j : Nat) : countNL (timeStr j) = 0 := by
  simp [timeStr, countNL_append, countNL_pad2]
  decide

theorem countNL_msgLine (j : Nat) : countNL (msgLine j) = 0 := by
  simp [msgLine, countNL_append, countNL_timeStr]
  decide

theorem wdName_cases (i : Nat) :
    wdName i = "Mon" ∨ wdName i = "Tue" ∨ wdName i = "Wed" ∨ wdName i = "Thu" ∨
      wdName i = "Fri" ∨ wdName i = "Sat" ∨ wdName i = "Sun" := by
  unfold wdName
  have h : i % 7 < 7 := Nat.mod_lt _ (by norm_num)
  set k := i % 7 with hk
  interval_cases k <;> simp

theorem countNL_wdName (i : Nat) : countNL (wdName i) = 0 := by
  rcases wdName_cases i with h | h | h | h | h | h | h <;> rw [h] <;> decide

theorem wdName_length (i : Nat) : (wdName i).length = 3 := by
  rcases wdName_cases i with h | h | h | h | h | h | h <;> rw [h] <;> decide

theorem countNL_dateLine (i : Nat) : countNL (dateLine i) = 0 := by
  simp [dateLine, countNL_append, countNL_pad2, countNL_pad4, countNL_wdName]
  decide

/-! ### Newline counts of the chunks, and the file total -/

theorem countNL_quotedChunk : countNL quotedChunk = 9 := by
  simp [quotedChunk, countNL_append, countNL_timeStr]
  decide

theorem blockChunks_countNL_sum (i : Nat) :
    ((blockChunks i).map countNL).sum = 111 := by
  have hmsg : (List.range 100).map (countNL ∘ fun j => msgLine j ++ "\n") =
      List.replicate 100 1 := by
    rw [show (List.replicate 100 1 : List Nat) =
        List.replicate (List.range 100).length 1 by simp, ← List.map_const']
    apply List.map_congr_left
    intro j _
    simp [Function.comp, countNL_append, countNL_msgLine]
    decide
  simp [blockChunks, List.map_append, List.sum_append, List.map_map, hmsg,
    countNL_append, countNL_dateLine, countNL_quotedChunk, List.sum_replicate]
  decide

theorem countNL_blocks (n : Nat) :
    countNL (writeAll ((List.range n).flatMap blockChunks)) = 111 * n := by
  induction n with
  | zero => rfl
  | succ n ih =>
    rw [List.range_succ, List.flatMap_append, writeAll_append, countNL_append, ih]
    have : countNL (writeAll ([n].flatMap blockChunks)) = 111 := by
      simp only [List.flatMap_cons, List.flatMap_nil, List.append_nil]
      rw [countNL_writeAll, blockChunks_countNL_sum]
    rw [this]
    ring

theorem countNL_fileContent : countNL fileContent = 1110003 := by
  have hh : countNL headerChunk = 3 := by decide
  rw [fileContent, writes, show writeAll (headerChunk :: (List.range 10000).flatMap blockChunks) =
    headerChunk ++ writeAll ((List.range 10000).flatMap blockChunks) from rfl,
    countNL_append, hh, countNL_blocks]

/-! ### Lengths of the line lists -/

theorem blockLines_length (i : Nat) : (blockLines i).length = 111 := by
  simp [blockLines, quotedMsgLines]

theorem flatMap_blockLines_length (n : Nat) :
    ((List.range n).flatMap blockLines).length = 111 * n := by
  induction n with
  | zero => rfl
  | succ n ih =>
    rw [List.range_succ, List.flatMap_append, List.length_append, ih]
    simp only [List.flatMap_cons, List.flatMap_nil, List.append_nil, blockLines_length]
    ring

theorem fileLines_length : fileLines.length = 1110003 := by
  rw [fileLines, List.length_append, flatMap_blockLines_length]
  rfl

/-! ### Locating individual lines -/

theorem flatMap_blockLines_get (n : Nat) :
    ∀ {i r : Nat}, i < n → r < 111 →
      ((List.range n).flatMap blockLines)[111 * i + r]? = (blockLines i)[r]? := by
  induction n with
  | zero => intro i r hi _; omega
  | succ n ih =>
    intro i r hi hr
    rw [List.range_succ, List.flatMap_append]
    by_cases h : i < n
    · rw [List.getElem?_append_left (by rw [flatMap_blockLines_length]; omega)]
      exact ih h hr
    · have hin : i = n := by omega
      subst hin
      rw [List.getElem?_append_right (by rw [flatMap_blockLines_length]; omega)]
      rw [flatMap_blockLines_length, show 111 * i + r - 111 * i = r by omega]
      simp only [List.flatMap_cons, List.flatMap_nil, List.append_nil]

theorem fileLines_get (i r : Nat) (hi : i < 10000) (hr : r < 111) :
    fileLines[3 + 111 * i + r]? = (blockLines i)[r]? := by
  rw [fileLines, List.getElem?_append_right (by simp [headerLines]; omega)]
  rw [show headerLines.length = 3 from rfl, show 3 + 111 * i + r - 3 = 111 * i + r by omega]
  exact flatMap_blockLines_get 10000 hi hr

theorem blockLines_get_zero (i : Nat) : (blockLines i)[0]? = some (dateLine i) := rfl

theorem blockLines_get_msg (i j : Nat) (hj : j < 100) :
    (blockLines i)[1 + j]? = some (msgLine j) := by
  rw [show 1 + j = j + 1 by omega, blockLines, List.getElem?_cons_succ,
    List.getElem?_append_left (by simpa using hj), List.getElem?_map,
    List.getElem?_range hj]
  rfl

theorem blockLines_get_quoted (i k : Nat) (hk : k < 9) :
    (blockLines i)[101 + k]? = quotedMsgLines[k]? := by
  rw [show 101 + k = (100 + k) + 1 by omega, blockLines, List.getElem?_cons_succ,
    List.getElem?_append_right (by simp)]
  rw [show 100 + k - (List.map msgLine (List.range 100)).length = k by simp]
  rw [List.getElem?_append_left (by simp [quotedMsgLines]; omega)]

theorem blockLines_get_blank (i : Nat) : (blockLines i)[110]? = some "" := by
  rw [show (110 : Nat) = 109 + 1 by omega, blockLines, List.getElem?_cons_succ,
    List.getElem?_append_right (by simp)]
  rw [show 109 - (List.map msgLine (List.range 100)).length = 9 by simp]
  rw [List.getElem?_append_right (by simp [quotedMsgLines])]
  rw [show 9 - quotedMsgLines.length = 0 by simp [quotedMsgLines]]
  rfl

/-! ### Non-blank lines -/

theorem dateLine_length (i : Nat) : (dateLine i).length = 15 := by
  simp [dateLine, String.length_append, pad2, pad4, wdName_length]
  rfl

theorem dateLine_ne_empty (i : Nat) : dateLine i ≠ "" := by
  intro h
  have := congrArg String.length h
  rw [dateLine_length] at this
  exact absurd this (by decide)

theorem msgLine_ne_empty (j : Nat) : msgLine j ≠ "" := by
  intro h
  have := congrArg String.length h
  simp [msgLine, String.length_append, timeStr, pad2] at this

theorem blockLines_get_ne_blank (i r : Nat) (hr : r < 110) :
    (blockLines i)[r]? ≠ some "" := by
  by_cases h0 : r = 0
  · subst h0
    rw [blockLines_get_zero]
    simp [dateLine_ne_empty i]
  · by_cases h1 : r < 101
    · obtain ⟨j, rfl⟩ : ∃ j, r = 1 + j := ⟨r - 1, by omega⟩
      rw [blockLines_get_msg i j (by omega)]
      simp [msgLine_ne_empty j]
    · obtain ⟨k, rfl⟩ : ∃ k, r = 101 + k := ⟨r - 101, by omega⟩
      rw [blockLines_get_quoted i k (by omega)]
      have hk : k < 9 := by omega
      interval_cases k <;> decide

/-! ### Chronological order of the generated dates -/

theorem dateLt_succDate (d : Date) : dateLt d (succDate d) := by
  unfold succDate
  split_ifs <;> simp [dateLt]

theorem dateLt_trans {a b c : Date} (h₁ : dateLt a b) (h₂ : dateLt b c) :
    dateLt a c := by
  rcases a with ⟨ay, am, ad⟩
  rcases b with ⟨by_, bm, bd⟩
  rcases c with ⟨cy, cm, cd⟩
  simp [dateLt] at *
  omega

theorem dateOfIndex_strictMono (i k : Nat) (h : i < k) :
    dateLt (dateOfIndex i) (dateOfIndex k) := by
  induction k with
  | zero => omega
  | succ k ih =>
    rcases Nat.lt_succ_iff_lt_or_eq.mp h with h' | h'
    · exact dateLt_trans (ih h') (dateLt_succDate _)
    · subst h'
      exact dateLt_succDate _

/-! ### The file content is exactly the newline-terminated line list -/

theorem writeAll_cons (s : String) (l : List String) :
    writeAll (s :: l) = s ++ writeAll l := rfl

theorem writeAll_blockChunks (i : Nat) :
    writeAll (blockChunks i) = mkLines (blockLines i) := by
  rw [blockChunks, blockLines, mkLines]
  generalize List.range 100 = L
  rw [List.map_cons, List.map_append, List.map_map]
  rw [writeAll_cons, writeAll_cons, writeAll_append, writeAll_append]
  rw [show ((fun s => s ++ "\n") ∘ msgLine) = (fun j => msgLine j ++ "\n") from rfl]
  rw [show writeAll [quotedChunk, "\n"] =
    writeAll ((quotedMsgLines ++ [""]).map (fun s => s ++ "\n")) from by decide]

theorem writeAll_blocks_eq_mkLines (n : Nat) :
    writeAll ((List.range n).flatMap blockChunks) =
      mkLines ((List.range n).flatMap blockLines) := by
  induction n with
  | zero => rfl
  | succ n ih =>
    rw [List.range_succ, List.flatMap_append, List.flatMap_append, writeAll_append,
      mkLines_append, ih]
    simp only [List.flatMap_cons, List.flatMap_nil, List.append_nil]
    rw [writeAll_blockChunks]

theorem fileContent_eq_mkLines : fileContent = mkLines fileLines := by
  rw [fileContent, writes, fileLines, mkLines_append,
    show writeAll (headerChunk :: (List.range 10000).flatMap blockChunks) =
      headerChunk ++ writeAll ((List.range 10000).flatMap blockChunks) from rfl,
    writeAll_blocks_eq_mkLines]
  rw [show headerChunk = mkLines headerLines from by decide]

/-! ### Fallible writes -/

theorem runWrites_none (l : List String) : ∀ idx, runWrites l idx none = .ok (writeAll l) := by
  induction l with
  | nil => intro idx; rfl
  | cons s t ih =>
    intro idx
    rw [runWrites, if_neg (by simp), ih (idx + 1)]
    rfl

theorem runWrites_fail (l : List String) :
    ∀ idx k, idx ≤ k → k < idx + l.length → runWrites l idx (some k) = .error () := by
  induction l with
  | nil => intro idx k h₁ h₂; simp at h₂; omega
  | cons s t ih =>
    intro idx k h₁ h₂
    by_cases h : k = idx
    · subst h
      rw [runWrites, if_pos rfl]
    · rw [runWrites, if_neg (by simp; exact h),
        ih (idx + 1) k (by omega) (by simp at h₂ ⊢; omega)]

example : pad2 5 = "05" := by decide
example : pad2 39 = "39" := by decide
example : timeStr 99 = "01:39" := by decide
example : pad4 2024 = "2024" := by decide
example : dateOfIndex 2 = ⟨2024, 1, 3⟩ := by decide
example : dateLine 0 = "2024/01/01(Mon)" := by decide
example : dateLine 31 = "2024/02/01(Thu)" := by decide

/-! ### The claims -/

/-- C1, counterexample: the generated file has 1,110,003 newline-terminated
lines (equivalently, `fileLines` has 1,110,003 entries), which differs from
the claimed total of a 3-line header plus 10,000 day-blocks of 101 lines
each plus 10,000 blank separators: each day-block in fact contributes 110
lines before its separator (1 date line, 100 message lines, and 9 physical
lines of the multi-line quoted message), not 101. -/
theorem c1_line_count_counterexample :
    countNL fileContent = 1110003 ∧ fileLines.length = 1110003 ∧
      3 + 10000 * 101 + 10000 ≠ 1110003 :=
  ⟨countNL_fileContent, fileLines_length, by norm_num⟩

/-- C1, amended: the total number of lines in the generated file is exactly
the 3 header lines plus 10,000 day-blocks of 110 lines each plus the
10,000 blank-line separators, and the file content is exactly those lines
each terminated by a newline. -/
theorem c1_line_count_amended :
    countNL fileContent = 3 + 10000 * 110 + 10000 ∧
      fileLines.length = 3 + 10000 * 110 + 10000 ∧
      fileContent = mkLines fileLines :=
  ⟨by rw [countNL_fileContent], by rw [fileLines_length], fileContent_eq_mkLines⟩

/-- C2: the output begins with the fixed header written before any
day-block: the line `[LINE] xxxのトーク履歴`, then the line
`保存日時：2024/01/01 00:00`, then one blank line. -/
theorem c2_header :
    fileContent = "[LINE] xxxのトーク履歴\n" ++ ("保存日時：2024/01/01 00:00\n" ++ ("\n" ++
        writeAll ((List.range 10000).flatMap blockChunks))) ∧
      fileLines.take 3 = ["[LINE] xxxのトーク履歴", "保存日時：2024/01/01 00:00", ""] := by
  constructor
  · rw [fileContent, writes, writeAll_cons,
      show headerChunk = "[LINE] xxxのトーク履歴\n" ++ ("保存日時：2024/01/01 00:00\n" ++ "\n")
        from by decide]
    simp only [String.append_assoc]
  · rw [fileLines, show (3 : Nat) = headerLines.length from rfl, List.take_left]
    rfl

/-- C3: for every `i < 10000`, the `i`-th day-block begins (at file line
`3 + 111 * i`) with a date line formatted as `%Y/%m/%d(%a)` for the date
2024-01-01 plus `i` days, and the underlying dates are strictly increasing
in chronological order. -/
theorem c3_date_lines (i : Nat) (hi : i < 10000) :
    fileLines[3 + 111 * i]? = some (dateLine i) ∧
      dateLine i = pad4 (dateOfIndex i).year ++ "/" ++ pad2 (dateOfIndex i).month ++ "/" ++
        pad2 (dateOfIndex i).day ++ "(" ++ wdName i ++ ")" ∧
      ∀ k, i < k → dateLt (dateOfIndex i) (dateOfIndex k) := by
  refine ⟨?_, rfl, fun k hk => dateOfIndex_strictMono i k hk⟩
  have h := fileLines_get i 0 hi (by norm_num)
  simp only [Nat.add_zero] at h
  rw [h, blockLines_get_zero]

/-- C3, witness at `i = 0`: file line 3 is `2024/01/01(Mon)` and the date
of block 0 chronologically precedes the date of block 1. -/
theorem c3_witness :
    fileLines[3]? = some "2024/01/01(Mon)" ∧ dateLt (dateOfIndex 0) (dateOfIndex 1) := by
  obtain ⟨h1, _, h3⟩ := c3_date_lines 0 (by norm_num)
  have h1' : fileLines[(3 : Nat)]? = some (dateLine 0) := by simpa using h1
  exact ⟨by rw [h1']; decide, h3 1 (by norm_num)⟩

/-- C4: for every block `i < 10000` and every `j < 100`, the `j`-th regular
message line of the block consists of the three tab-separated fields
`%H:%M` of the block's date plus `j` minutes, the name `NAME`, and the
message `MESSAGE`; the rendered hour and minute fields denote exactly `j`
minutes past midnight. -/
theorem c4_message_lines (i j : Nat) (hi : i < 10000) (hj : j < 100) :
    fileLines[3 + 111 * i + (1 + j)]? = some (timeStr j ++ "\tNAME\tMESSAGE") ∧
      timeStr j = pad2 (j / 60) ++ ":" ++ pad2 (j % 60) ∧
      60 * (j / 60) + j % 60 = j := by
  refine ⟨?_, rfl, by omega⟩
  rw [fileLines_get i (1 + j) hi (by omega), blockLines_get_msg i j hj]
  rfl

/-- C4, witness at `i = 0`, `j = 0`: file line 4 is `00:00\tNAME\tMESSAGE`. -/
theorem c4_witness :
    fileLines[4]? = some "00:00\tNAME\tMESSAGE" ∧ 60 * (0 / 60) + 0 % 60 = 0 := by
  obtain ⟨h1, -, h3⟩ := c4_message_lines 0 0 (by norm_num) (by norm_num)
  have h1' : fileLines[(4 : Nat)]? = some (timeStr 0 ++ "\tNAME\tMESSAGE") := by simpa using h1
  exact ⟨by rw [h1']; decide, h3⟩

/-- C5: every day-block ends with exactly one multi-line quoted message,
occupying lines `101`..`109` of the block: a timestamped tab-separated line
whose message field opens with a double quote, a body spanning the nine
text lines `MESSAGE LINE 0` .. `MESSAGE LINE 8`, closing with a double
quote; every regular message line and date line is newline-free, so no
other message spans multiple lines. -/
theorem c5_quoted_message (i : Nat) (hi : i < 10000) :
    (∀ k, k < 9 → fileLines[3 + 111 * i + (101 + k)]? = quotedMsgLines[k]?) ∧
      quotedMsgLines = ["01:39\tNAME\t\"MESSAGE LINE 0", "MESSAGE LINE 1", "MESSAGE LINE 2",
        "MESSAGE LINE 3", "MESSAGE LINE 4", "MESSAGE LINE 5", "MESSAGE LINE 6",
        "MESSAGE LINE 7", "MESSAGE LINE 8\""] ∧
      (∀ j, countNL (msgLine j) = 0) ∧ (∀ i', countNL (dateLine i') = 0) := by
  refine ⟨fun k hk => ?_, by decide, countNL_msgLine, countNL_dateLine⟩
  rw [fileLines_get i (101 + k) hi (by omega), blockLines_get_quoted i k hk]

/-- C5, witness at `i = 0`, `k = 0`: file line 104 opens the quoted
message, and regular message line 0 contains no newline. -/
theorem c5_witness :
    fileLines[104]? = some "01:39\tNAME\t\"MESSAGE LINE 0" ∧ countNL (msgLine 0) = 0 := by
  obtain ⟨h1, -, h3, -⟩ := c5_quoted_message 0 (by norm_num)
  have h := h1 0 (by norm_num)
  have h' : fileLines[(104 : Nat)]? = quotedMsgLines[0]? := by simpa using h
  exact ⟨by rw [h']; decide, h3 0⟩

/-- C6: every day-block is followed by exactly one blank line (line 110 of
the block is blank, and no line of the block before it is blank), and the
file ends with the blank line of the last block: the file has 1,110,003
lines and line `1110002 = 3 + 111 * 9999 + 110` is the last one. -/
theorem c6_separators (i : Nat) (hi : i < 10000) :
    fileLines[3 + 111 * i + 110]? = some "" ∧
      (∀ r, r < 110 → fileLines[3 + 111 * i + r]? ≠ some "") ∧
      fileLines.length = 1110003 ∧ 3 + 111 * 9999 + 110 = 1110003 - 1 := by
  refine ⟨?_, fun r hr => ?_, fileLines_length, by norm_num⟩
  · rw [fileLines_get i 110 hi (by norm_num), blockLines_get_blank]
  · rw [fileLines_get i r hi (by omega)]
    exact blockLines_get_ne_blank i r hr

/-- C6, witness at `i = 0`: file line 113 is blank and file line 3 (the
block's date line) is not. -/
theorem c6_witness : fileLines[113]? = some "" ∧ fileLines[3]? ≠ some "" := by
  obtain ⟨h1, h2, -, -⟩ := c6_separators 0 (by norm_num)
  exact ⟨by simpa using h1, by simpa using h2 0 (by norm_num)⟩

/-- C7: the generation is deterministic: the script reads no command-line
arguments, environment variables, or files, so its output text is the same
for any two process environments. -/
theorem c7_deterministic (argv₁ argv₂ : List String) (env₁ env₂ : List (String × String)) :
    scriptOutput argv₁ env₁ = scriptOutput argv₂ env₂ := rfl

/-- C8: the script contains no error handling: under the fallible-write
semantics, a failure of any single write aborts the run with an error (no
branch catches, retries, or recovers), while a run with no failing write
produces the full file content. -/
theorem c8_write_failure (k : Nat) (hk : k < writes.length) :
    runWrites writes 0 (some k) = .error () ∧ runWrites writes 0 none = .ok fileContent :=
  ⟨runWrites_fail writes 0 k (Nat.zero_le k) (by omega), runWrites_none writes 0⟩

/-- C8, witness: failing the very first write (the header) aborts the run. -/
theorem c8_witness :
    runWrites writes 0 (some 0) = .error () ∧ runWrites writes 0 none = .ok fileContent :=
  c8_write_failure 0 (by rw [writes, List.length_cons]; omega)

/-- C9: within every day-block the 100 regular message lines carry the
times `timeStr 0`, ..., `timeStr 99`; the denoted times of day are
strictly increasing, consecutive lines are exactly one minute apart, every
denoted time is within the first 100 minutes of the day (at most 99
minutes past midnight, i.e. `01:39`), and the only other timestamped line
of the block (the quoted message) carries `timeStr 99`, also in range. -/
theorem c9_timestamp_range (i j : Nat) (hi : i < 10000) (hj : j < 100) :
    fileLines[3 + 111 * i + (1 + j)]? = some (timeStr j ++ "\tNAME\tMESSAGE") ∧
      (∀ k, j < k → k < 100 → 60 * (j / 60) + j % 60 < 60 * (k / 60) + k % 60) ∧
      (j + 1 < 100 → 60 * ((j + 1) / 60) + (j + 1) % 60 = (60 * (j / 60) + j % 60) + 1) ∧
      60 * (j / 60) + j % 60 ≤ 99 ∧
      fileLines[3 + 111 * i + 101]? = some (timeStr 99 ++ "\tNAME\t\"MESSAGE LINE 0") := by
  refine ⟨?_, fun k h1 h2 => by omega, fun h => by omega, by omega, ?_⟩
  · rw [fileLines_get i (1 + j) hi (by omega), blockLines_get_msg i j hj]
    rfl
  · have h := blockLines_get_quoted i 0 (by norm_num)
    have h' : (blockLines i)[(101 : Nat)]? = some (timeStr 99 ++ "\tNAME\t\"MESSAGE LINE 0") := by
      simpa [quotedMsgLines] using h
    rw [fileLines_get i 101 hi (by norm_num), h']

/-- C9, witness at `i = 0`, `j = 0`: line 4 carries `00:00`, the time one
minute later is one minute greater, and `00:00` denotes at most 99 minutes. -/
theorem c9_witness :
    fileLines[4]? = some ("00:00" ++ "\tNAME\tMESSAGE") ∧
      60 * (1 / 60) + 1 % 60 = (60 * (0 / 60) + 0 % 60) + 1 ∧
      60 * (0 / 60) + 0 % 60 ≤ 99 := by
  obtain ⟨h1, -, h3, h4, -⟩ := c9_timestamp_range 0 0 (by norm_num) (by norm_num)
  have h1' : fileLines[(4 : Nat)]? = some (timeStr 0 ++ "\tNAME\tMESSAGE") := by simpa using h1
  exact ⟨by rw [h1']; decide, h3 (by norm_num), h4⟩

/-- C10: in every day-block the quoted multi-line message carries the same
timestamp `timeStr 99 = "01:39"` (the day's start plus 99 minutes) as the
immediately preceding regular message line (the one with `j = 99`); the
clock does not advance. -/
theorem c10_reused_timestamp (i : Nat) (hi : i < 10000) :
    fileLines[3 + 111 * i + 100]? = some (timeStr 99 ++ "\tNAME\tMESSAGE") ∧
      fileLines[3 + 111 * i + 101]? = some (timeStr 99 ++ "\tNAME\t\"MESSAGE LINE 0") ∧
      timeStr 99 = "01:39" ∧ 60 * (99 / 60) + 99 % 60 = 99 := by
  refine ⟨?_, ?_, by decide, by norm_num⟩
  · have h := blockLines_get_msg i 99 (by norm_num)
    have h' : (blockLines i)[(100 : Nat)]? = some (msgLine 99) := by simpa using h
    rw [fileLines_get i 100 hi (by norm_num), h']
    rfl
  · have h := blockLines_get_quoted i 0 (by norm_num)
    have h' : (blockLines i)[(101 : Nat)]? = some (timeStr 99 ++ "\tNAME\t\"MESSAGE LINE 0") := by
      simpa [quotedMsgLines] using h
    rw [fileLines_get i 101 hi (by norm_num), h']

/-- C10, witness at `i = 0`: file lines 103 and 104 both carry `01:39`. -/
theorem c10_witness :
    fileLines[103]? = some ("01:39" ++ "\tNAME\tMESSAGE") ∧
      fileLines[104]? = some ("01:39" ++ "\tNAME\t\"MESSAGE LINE 0") := by
  obtain ⟨h1, h2, h3, -⟩ := c10_reused_timestamp 0 (by norm_num)
  have h1' : fileLines[(103 : Nat)]? = some (timeStr 99 ++ "\tNAME\tMESSAGE") := by simpa using h1
  have h2' : fileLines[(104 : Nat)]? = some (timeStr 99 ++ "\tNAME\t\"MESSAGE LINE 0") := by
    simpa using h2
  rw [h3] at h1' h2'
  exact ⟨h1', h2'⟩

end MakeBench
